import Mathlib

/-!
Verification development for the ListMmf reading/scanning/merging scripts.

The Python sources embedded here:
  * scripts/listmmf_reader.py   — header decoding, type registry, odd-byte
    rejection, DateTime tick conversion
  * scripts/scan_listmmf_stats.py — corpus scanner with per-type counters and
    odd-byte savings estimation
  * scripts/mmf_to_parquet.py   — column lookup and merge-to-table logic

Machine integers are modelled as `Int` with explicit two's-complement wrapping
(`% 2 ^ 64`) where the source performs numpy int64 arithmetic.  Byte strings
are `List Nat` with each element intended `< 256`.  Fallible operations return
`Option` or `Except`.
-/

/- ------------------------------------------------------------------
   DataType registry
   (scripts/listmmf_reader.py DATA_TYPE_NAMES / DTYPE_MAP / ODD_BYTE_TYPES,
    scripts/scan_listmmf_stats.py ELEM_WIDTH_BYTES / ODD_BYTE_DT /
    ODD_FALLBACK_WIDTH)
   ------------------------------------------------------------------ -/

/-- Embeds `DATA_TYPE_NAMES` (listmmf_reader.py lines 25-48):
`dict.get(datatype, f"Unknown({datatype})")`. -/
def DATA_TYPE_NAMES (c : Int) : String :=
  if c = 0 then "AnyStruct"
  else if c = 1 then "Bit"
  else if c = 2 then "SByte"
  else if c = 3 then "Byte"
  else if c = 4 then "Int16"
  else if c = 5 then "UInt16"
  else if c = 6 then "Int32"
  else if c = 7 then "UInt32"
  else if c = 8 then "Int64"
  else if c = 9 then "UInt64"
  else if c = 10 then "Single"
  else if c = 11 then "Double"
  else if c = 12 then "DateTime"
  else if c = 13 then "UnixSeconds"
  else if c = 14 then "Int24AsInt64"
  else if c = 15 then "Int40AsInt64"
  else if c = 16 then "Int48AsInt64"
  else if c = 17 then "Int56AsInt64"
  else if c = 18 then "UInt24AsInt64"
  else if c = 19 then "UInt40AsInt64"
  else if c = 20 then "UInt48AsInt64"
  else if c = 21 then "UInt56AsInt64"
  else "Unknown(" ++ toString c ++ ")"

/-- Numpy element types appearing in `DTYPE_MAP` (listmmf_reader.py). -/
inductive NPDtype where
  | int8 | uint8 | int16 | uint16 | int32 | uint32
  | int64 | uint64 | float32 | float64
  deriving DecidableEq, Repr

/-- Embeds `DTYPE_MAP` (listmmf_reader.py lines 51-64); `dict.get` on a
missing key is `none`. -/
def DTYPE_MAP (c : Int) : Option NPDtype :=
  if c = 2 then some .int8
  else if c = 3 then some .uint8
  else if c = 4 then some .int16
  else if c = 5 then some .uint16
  else if c = 6 then some .int32
  else if c = 7 then some .uint32
  else if c = 8 then some .int64
  else if c = 9 then some .uint64
  else if c = 10 then some .float32
  else if c = 11 then some .float64
  else if c = 12 then some .int64   -- DateTime (stored as .NET ticks)
  else if c = 13 then some .int32   -- UnixSeconds
  else none

/-- Embeds `ODD_BYTE_TYPES` (listmmf_reader.py line 67) and the identical
`ODD_BYTE_DT` set (scan_listmmf_stats.py line 89). -/
def ODD_BYTE_TYPES : List Int := [14, 15, 16, 17, 18, 19, 20, 21]

/-- Embeds `ELEM_WIDTH_BYTES` (scan_listmmf_stats.py lines 64-86); note the
source gives code 1 (Bit) the width 1 and has no entry for code 0. -/
def ELEM_WIDTH_BYTES (c : Int) : Option Int :=
  if c = 1 then some 1
  else if c = 2 then some 1
  else if c = 3 then some 1
  else if c = 4 then some 2
  else if c = 5 then some 2
  else if c = 6 then some 4
  else if c = 7 then some 4
  else if c = 8 then some 8
  else if c = 9 then some 8
  else if c = 10 then some 4
  else if c = 11 then some 8
  else if c = 12 then some 8
  else if c = 13 then some 4
  else if c = 14 then some 3
  else if c = 15 then some 5
  else if c = 16 then some 6
  else if c = 17 then some 7
  else if c = 18 then some 3
  else if c = 19 then some 5
  else if c = 20 then some 6
  else if c = 21 then some 7
  else none

/-- Embeds `ODD_FALLBACK_WIDTH` (scan_listmmf_stats.py lines 94-103). -/
def ODD_FALLBACK_WIDTH (c : Int) : Option Int :=
  if c = 14 then some 4
  else if c = 18 then some 4
  else if c = 15 then some 8
  else if c = 16 then some 8
  else if c = 17 then some 8
  else if c = 19 then some 8
  else if c = 20 then some 8
  else if c = 21 then some 8
  else none

/- ------------------------------------------------------------------
   HeaderCodec (listmmf_reader.py read_header: struct.unpack of
   '<iiq' on the first 16 bytes)
   ------------------------------------------------------------------ -/

/-- The decoded 16-byte header `(int32 version, int32 dataType, int64 count)`.
The Python dataclass also carries `datatype_name`, which is always
`DATA_TYPE_NAMES datatype` and is kept derived here. -/
structure Header where
  version : Int
  datatype : Int
  count : Int
  deriving DecidableEq, Repr

/-- Little-endian value of a byte list (each entry intended `< 256`). -/
def leNat (bs : List Nat) : Nat :=
  bs.foldr (fun b acc => b + 256 * acc) 0

/-- `struct.unpack` of a little-endian signed 32-bit field. -/
def decodeI32 (bs : List Nat) : Int :=
  let u := leNat bs
  if u < 2 ^ 31 then (u : Int) else (u : Int) - 2 ^ 32

/-- `struct.unpack` of a little-endian signed 64-bit field. -/
def decodeI64 (bs : List Nat) : Int :=
  let u := leNat bs
  if u < 2 ^ 63 then (u : Int) else (u : Int) - 2 ^ 64

/-- Embeds the `struct.unpack('<iiq', header_bytes)` core of `read_header`
(listmmf_reader.py line 111 and scan_listmmf_stats.py line 126); unpacking
fails unless exactly 16 bytes are supplied. -/
def decode_header (bs : List Nat) : Option Header :=
  if bs.length = 16 then
    some { version := decodeI32 (bs.take 4)
           datatype := decodeI32 ((bs.drop 4).take 4)
           count := decodeI64 (bs.drop 8) }
  else none

/-- Modelled from the spec: the `encode(Header) -> bytes[16]` half of
HeaderCodec is not in src/ (the spec says it is used only by round-trip
validation; the production write path is out of scope).  Little-endian
two's-complement serialization of a signed 32-bit field, inverse of
`struct.pack('<i', n)`. -/
def encodeI32 (n : Int) : List Nat :=
  let u := (n % 2 ^ 32).toNat
  [u % 256, u / 2 ^ 8 % 256, u / 2 ^ 16 % 256, u / 2 ^ 24 % 256]

/-- Modelled from the spec: little-endian two's-complement serialization of a
signed 64-bit field, inverse of `struct.pack('<q', n)`. -/
def encodeI64 (n : Int) : List Nat :=
  let u := (n % 2 ^ 64).toNat
  [u % 256, u / 2 ^ 8 % 256, u / 2 ^ 16 % 256, u / 2 ^ 24 % 256,
   u / 2 ^ 32 % 256, u / 2 ^ 40 % 256, u / 2 ^ 48 % 256, u / 2 ^ 56 % 256]

/-- Modelled from the spec: `encode(Header) -> bytes[16]`, the inverse of
`decode`, laying out `version`, `dataType`, `count` little-endian
(`struct.pack('<iiq', ...)`). -/
def encode_header (h : Header) : List Nat :=
  encodeI32 h.version ++ encodeI32 h.datatype ++ encodeI64 h.count

/-- A header is valid when each field fits its declared machine width. -/
def validHeader (h : Header) : Prop :=
  -(2 ^ 31) ≤ h.version ∧ h.version < 2 ^ 31 ∧
  -(2 ^ 31) ≤ h.datatype ∧ h.datatype < 2 ^ 31 ∧
  -(2 ^ 63) ≤ h.count ∧ h.count < 2 ^ 63

instance (h : Header) : Decidable (validHeader h) := by
  unfold validHeader; infer_instance

/- ------------------------------------------------------------------
   EpochConverter (listmmf_reader.py convert_datetime)
   ------------------------------------------------------------------ -/

/-- `DOTNET_TO_UNIX_TICKS` (listmmf_reader.py line 199). -/
def DOTNET_TO_UNIX_TICKS : Int := 621355968000000000

/-- Two's-complement reduction of an integer into the signed 64-bit range
`[-2^63, 2^63)`: the value semantics of numpy int64 arithmetic. -/
def wrap64 (x : Int) : Int :=
  (x + 2 ^ 63) % 2 ^ 64 - 2 ^ 63

/-- Elementwise embedding of `convert_datetime` (listmmf_reader.py line 202):
`unix_ns = (ticks - DOTNET_TO_UNIX_TICKS) * 100` performed on an int64 numpy
array, whose subtraction and multiplication wrap modulo `2 ^ 64`; the final
`.astype('datetime64[ns]')` reinterprets the same int64 value as a
nanosecond count and is value-preserving, so it is the identity here. -/
def convert_datetime_elem (t : Int) : Int :=
  wrap64 (wrap64 (t - DOTNET_TO_UNIX_TICKS) * 100)

/- ------------------------------------------------------------------
   ColumnReader type checks (listmmf_reader.py read_listmmf lines 146-169)
   ------------------------------------------------------------------ -/

/-- The distinct `raise ListMmfReadError(...)` sites of `read_listmmf`
(lines 150-169); each constructor carries the formatted message. -/
inductive ReadError where
  | oddByteTypeUnsupported (msg : String)
  | structTypeUnsupported (msg : String)
  | bitArrayUnsupported (msg : String)
  | unknownDataType (msg : String)
  deriving DecidableEq, Repr

/-- Embeds the type-dispatch of `read_listmmf` (listmmf_reader.py
lines 146-169): odd-byte check first, then AnyStruct (0), then Bit (1), then
the `DTYPE_MAP` lookup.  On success the payload would be memory-mapped with
the resolved numpy dtype; no data is touched on any error path. -/
def read_listmmf_check (h : Header) : Except ReadError NPDtype :=
  if h.datatype ∈ ODD_BYTE_TYPES then
    .error (.oddByteTypeUnsupported
      ("Odd-byte type " ++ DATA_TYPE_NAMES h.datatype ++ " is not supported. " ++
       "Consider exporting from C# to a standard format first."))
  else if h.datatype = 0 then
    .error (.structTypeUnsupported "Cannot read AnyStruct files (DataType=0)")
  else if h.datatype = 1 then
    .error (.bitArrayUnsupported
      ("BitArray files require special handling (not yet implemented). " ++
       "Use the C# library or implement bit unpacking."))
  else
    match DTYPE_MAP h.datatype with
    | none => .error (.unknownDataType
        ("Unsupported DataType: " ++ DATA_TYPE_NAMES h.datatype))
    | some dt => .ok dt

/- ------------------------------------------------------------------
   CorpusScanner (scan_listmmf_stats.py read_header / scan_dir)
   ------------------------------------------------------------------ -/

/-- The `FileInfo` dataclass (scan_listmmf_stats.py lines 109-115). -/
structure FileInfo where
  path : String
  size_bytes : Int
  version : Int
  data_type : Int
  count : Int
  deriving DecidableEq, Repr

/-- A file presented to the scanner: its path, its on-disk size and its
raw content bytes. -/
structure ScanFile where
  path : String
  size_bytes : Int
  bytes : List Nat
  deriving DecidableEq, Repr

/-- Embeds the scanner's `read_header` (scan_listmmf_stats.py lines 118-130):
a file smaller than 16 bytes, or one whose first 16 bytes cannot be unpacked,
yields `none` (a warning is printed and the file is skipped); every other
exception is likewise caught and yields `none`. -/
def scan_read_header (f : ScanFile) : Option FileInfo :=
  if f.size_bytes < 16 then none
  else
    match decode_header (f.bytes.take 16) with
    | none => none
    | some h =>
        some { path := f.path, size_bytes := f.size_bytes,
               version := h.version, data_type := h.datatype, count := h.count }

/-- A `collections.Counter` over int keys, as an insertion-ordered
association list (Python dicts preserve insertion order). -/
abbrev Counter := List (Int × Int)

/-- `counter[k] += v`: add `v` at key `k`, appending the key if absent. -/
def cIncr (c : Counter) (k : Int) (v : Int) : Counter :=
  match c with
  | [] => [(k, v)]
  | (k₁, v₁) :: rest =>
      if k = k₁ then (k₁, v₁ + v) :: rest else (k₁, v₁) :: cIncr rest k v

/-- `counter.get(k, 0)` / `counter[k]` read access. -/
def cGet (c : Counter) (k : Int) : Int :=
  match c with
  | [] => 0
  | (k₁, v₁) :: rest => if k = k₁ then v₁ else cGet rest k

/-- Sum of a counter's values: the total across all keys. -/
def cSum (c : Counter) : Int :=
  match c with
  | [] => 0
  | (_, v) :: rest => v + cSum rest

/-- The accumulator state of `scan_dir` (scan_listmmf_stats.py lines
133-145 and the result dict of lines 177-186). -/
structure ScanStats where
  total_bytes : Int
  total_files : Int
  by_dtype_files : Counter
  by_dtype_items : Counter
  by_dtype_bytes : Counter
  odd_files : Int
  odd_saved_bytes_total : Int
  odd_saved_bytes_by_dtype : Counter
  results : List FileInfo

/-- The fresh accumulator at the start of `scan_dir`. -/
def initStats : ScanStats :=
  { total_bytes := 0, total_files := 0,
    by_dtype_files := [], by_dtype_items := [], by_dtype_bytes := [],
    odd_files := 0, odd_saved_bytes_total := 0, odd_saved_bytes_by_dtype := [],
    results := [] }

/-- The odd-byte savings computed for one file (scan_listmmf_stats.py lines
166-173): `odd = ELEM_WIDTH_BYTES.get(dt)`, `fb = ODD_FALLBACK_WIDTH[dt]`
(the key is always present when `dt` is odd-byte, so `KeyError` is
unreachable and `getD 0` is a safe stand-in), then
`saved = (fb - odd) * count` accumulated only under the two guards
`odd is not None and count >= 0` and `saved > 0`; the value returned here is
exactly what the two accumulators gain. -/
def oddSaved (dt : Int) (count : Int) : Int :=
  match ELEM_WIDTH_BYTES dt with
  | none => 0
  | some odd =>
      if 0 ≤ count then
        let saved := ((ODD_FALLBACK_WIDTH dt).getD 0 - odd) * count
        if 0 < saved then saved else 0
      else 0

/-- One iteration of the `scan_dir` per-file body for a successfully decoded
header (scan_listmmf_stats.py lines 156-175): bump the totals, the per-dtype
counters (items clamped with `max(0, count)`), the odd-byte counters, and
append to `results`. -/
def scanStep (s : ScanStats) (info : FileInfo) : ScanStats :=
  { total_files := s.total_files + 1
    total_bytes := s.total_bytes + info.size_bytes
    by_dtype_files := cIncr s.by_dtype_files info.data_type 1
    by_dtype_items := cIncr s.by_dtype_items info.data_type (max 0 info.count)
    by_dtype_bytes := cIncr s.by_dtype_bytes info.data_type info.size_bytes
    odd_files := s.odd_files +
      (if info.data_type ∈ ODD_BYTE_TYPES then 1 else 0)
    odd_saved_bytes_total := s.odd_saved_bytes_total +
      (if info.data_type ∈ ODD_BYTE_TYPES then oddSaved info.data_type info.count else 0)
    odd_saved_bytes_by_dtype :=
      if info.data_type ∈ ODD_BYTE_TYPES ∧ 0 < oddSaved info.data_type info.count then
        cIncr s.odd_saved_bytes_by_dtype info.data_type (oddSaved info.data_type info.count)
      else s.odd_saved_bytes_by_dtype
    results := s.results ++ [info] }

/-- `fn.lower().endswith(".bt")` (scan_listmmf_stats.py line 149), at the
character-list level: lower-case the name and test the `.bt` suffix. -/
def lowerEndsWithBt (p : String) : Bool :=
  List.isSuffixOf ".bt".data (p.data.map Char.toLower)

/-- The per-file branch of the `scan_dir` walk (scan_listmmf_stats.py lines
148-175): non-`.bt` names (case-insensitively) are ignored, files whose
header cannot be read are skipped, the rest go through `scanStep`. -/
def scanVisit (s : ScanStats) (f : ScanFile) : ScanStats :=
  if lowerEndsWithBt f.path then
    match scan_read_header f with
    | none => s
    | some info => scanStep s info
  else s

/-- Embeds `scan_dir` (scan_listmmf_stats.py lines 133-186) as a fold of the
per-file body over the list of files discovered by the directory walk. -/
def scan_dir (fs : List ScanFile) : ScanStats :=
  fs.foldl scanVisit initStats

/-- The files that contribute to the aggregates: `.bt` extension and a
decodable header of at least 16 bytes. -/
def scanGood (f : ScanFile) : Bool :=
  lowerEndsWithBt f.path && (scan_read_header f).isSome

/- ------------------------------------------------------------------
   ColumnMerger (mmf_to_parquet.py find_mmf_files / convert_to_parquet)
   ------------------------------------------------------------------ -/

/-- Embeds the per-name lookup of `find_mmf_files` with an explicit column
list (mmf_to_parquet.py lines 53-63): try `<name>.mmf` then `<name>.bt`
against the directory contents, taking the first that exists; `none` means
the warning branch.  `dir` is the list of filenames present. -/
def lookup_col (dir : List String) (col : String) : Option String :=
  if (col ++ ".mmf") ∈ dir then some (col ++ ".mmf")
  else if (col ++ ".bt") ∈ dir then some (col ++ ".bt")
  else none

/-- The `files` mapping built by `find_mmf_files` for an explicit column
list: one `(name, path)` entry per requested name that was found, in request
order (the Python loop fills a dict in exactly this order). -/
def find_mmf_files_named (dir : List String) (cols : List String) :
    List (String × String) :=
  cols.filterMap (fun c => (lookup_col dir c).map (fun p => (c, p)))

/-- The names that trigger `WARNING: Column '<col>' not found` and are left
out of the mapping (mmf_to_parquet.py lines 62-63). -/
def find_mmf_warnings (dir : List String) (cols : List String) : List String :=
  cols.filter (fun c => (lookup_col dir c).isNone)

/-- Maximum column length, computed as the running
`max_length = max(max_length, len(series))` of the read loop
(mmf_to_parquet.py lines 119-125). -/
def maxLen (files : List (String × List α)) : Nat :=
  (files.map (fun p => p.2.length)).foldl max 0

/-- Embeds `convert_to_parquet` (mmf_to_parquet.py lines 96-160) on columns
that have already been read (`read_column` I/O abstracted to the given
lists).  Empty input raises `ValueError("No files to convert")`.  The
returned flag records whether the `len(set(lengths.values())) > 1`
length-mismatch warning was printed (lines 131-136).  The table is
`pd.DataFrame(columns)` (line 139): pandas aligns a dict of Series on the
union of their RangeIndexes, so the frame's length is the maximum series
length and every cell of a shorter column past its own length is the
missing-value sentinel of that column's type (`none` here, standing for
NaN/NaT).  The merge then proceeds to the Parquet write; it never aborts on
a length mismatch. -/
def convert_to_parquet (files : List (String × List α)) :
    Except String (Bool × List (String × List (Option α))) :=
  if files.isEmpty then .error "No files to convert"
  else
    let lengths := files.map (fun p => p.2.length)
    let warned := decide (1 < lengths.dedup.length)
    .ok (warned,
      files.map (fun p =>
        (p.1, p.2.map some ++ List.replicate (maxLen files - p.2.length) none)))

/- ------------------------------------------------------------------
   Supporting lemmas
   ------------------------------------------------------------------ -/

/-- Wrapping commutes with the final multiplication: reducing the
intermediate difference to int64 first does not change the wrapped
product. -/
theorem wrap64_mul100 (a : Int) : wrap64 (wrap64 a * 100) = wrap64 (a * 100) := by
  unfold wrap64
  have h : ((a + 2 ^ 63) % 2 ^ 64 - 2 ^ 63) * 100
      = a * 100 + 2 ^ 63 + 2 ^ 64 * ((a + 2 ^ 63) / 2 ^ 64 * -100) - 2 ^ 63 := by
    rw [Int.emod_def]; ring
  rw [h]
  congr 1
  omega

/- ------------------------------------------------------------------
   Claims about EpochConverter
   ------------------------------------------------------------------ -/

/-- C1 (counterexample): the claim quantifies over every int64 tick value,
but at `t = 2 ^ 62` the numpy int64 arithmetic of `convert_datetime` wraps,
so the result is not `(t - 621355968000000000) * 100`. -/
theorem convert_datetime_not_exact_at_pow62 :
    convert_datetime_elem (2 ^ 62) ≠ (2 ^ 62 - 621355968000000000) * 100 := by
  decide

/-- C1 (amended): for every tick value `t` such that
`(t - 621355968000000000) * 100` fits in signed 64 bits, `convert_datetime`
yields exactly `(t - 621355968000000000) * 100` nanoseconds since the Unix
epoch; in particular it maps `621355968000000000` to `0` and
`621355968000000000 + 10_000_000` to one second after the epoch (see the
witness). -/
theorem convert_datetime_exact_in_range (t : Int)
    (h₁ : -(2 ^ 63) ≤ (t - 621355968000000000) * 100)
    (h₂ : (t - 621355968000000000) * 100 < 2 ^ 63) :
    convert_datetime_elem t = (t - 621355968000000000) * 100 := by
  unfold convert_datetime_elem wrap64 DOTNET_TO_UNIX_TICKS
  omega

/-- C1 (witness): the two spec instances — the .NET-to-Unix offset maps to
0 ns, and the offset plus 10^7 ticks maps to exactly 10^9 ns (one second). -/
theorem convert_datetime_exact_in_range_witness :
    convert_datetime_elem 621355968000000000 = 0 ∧
    convert_datetime_elem (621355968000000000 + 10000000) = 1000000000 := by
  constructor
  · have h := convert_datetime_exact_in_range 621355968000000000
      (by decide) (by decide)
    rw [h]; decide
  · have h := convert_datetime_exact_in_range (621355968000000000 + 10000000)
      (by decide) (by decide)
    rw [h]; decide

/-- C5 (counterexample): the conversion is not overflow-free over the full
int64 range: at `t = 6 * 10 ^ 18` (a representable int64) the int64 product
wraps and the result differs from the exact value
`(t - 621355968000000000) * 100`. -/
theorem convert_datetime_wraps_at_6e18 :
    convert_datetime_elem 6000000000000000000 ≠
      (6000000000000000000 - 621355968000000000) * 100 := by
  decide

/-- C5 (amended): `convert_datetime` computes in 64-bit signed integer
arithmetic with two's-complement wraparound: for every tick value the result
is `(t - 621355968000000000) * 100` reduced modulo `2 ^ 64` into
`[-2 ^ 63, 2 ^ 63)`, and that reduction is the identity (the result exact,
no wrap) precisely when the product lies in the signed 64-bit range — not
for the full representable range of int64 ticks. -/
theorem convert_datetime_wraps_mod_2_64 (t : Int) :
    convert_datetime_elem t = wrap64 ((t - DOTNET_TO_UNIX_TICKS) * 100) ∧
    (wrap64 ((t - DOTNET_TO_UNIX_TICKS) * 100) = (t - DOTNET_TO_UNIX_TICKS) * 100 ↔
      -(2 ^ 63) ≤ (t - DOTNET_TO_UNIX_TICKS) * 100 ∧
        (t - DOTNET_TO_UNIX_TICKS) * 100 < 2 ^ 63) := by
  constructor
  · exact wrap64_mul100 (t - DOTNET_TO_UNIX_TICKS)
  · unfold wrap64
    constructor
    · intro h; omega
    · intro h; omega

/- ------------------------------------------------------------------
   Claims about the ColumnReader type checks
   ------------------------------------------------------------------ -/

/-- C2: for every header declaring one of the 8 odd-byte codes (14..21),
`read_listmmf` fails with the odd-byte-unsupported error whose message
contains the type's canonical name, and never returns data (the check
precedes any payload access). -/
theorem read_listmmf_rejects_odd_byte (h : Header)
    (hm : h.datatype ∈ ODD_BYTE_TYPES) :
    (∃ pre post, read_listmmf_check h =
        .error (.oddByteTypeUnsupported (pre ++ DATA_TYPE_NAMES h.datatype ++ post))) ∧
    ∀ dt, read_listmmf_check h ≠ .ok dt := by
  have hcheck : read_listmmf_check h =
      .error (.oddByteTypeUnsupported
        ("Odd-byte type " ++ DATA_TYPE_NAMES h.datatype ++ " is not supported. " ++
         "Consider exporting from C# to a standard format first.")) := by
    unfold read_listmmf_check
    rw [if_pos hm]
  constructor
  · refine ⟨"Odd-byte type ",
      " is not supported. " ++ "Consider exporting from C# to a standard format first.", ?_⟩
    rw [hcheck]
    simp [String.append_assoc]
  · intro dt hdt
    rw [hcheck] at hdt
    exact Except.noConfusion hdt

/-- C2 (witness): a concrete header of odd-byte code 14 is rejected with the
odd-byte error, the message carrying the canonical name, and no data. -/
theorem read_listmmf_rejects_odd_byte_witness :
    (14 : Int) ∈ ODD_BYTE_TYPES ∧
    ((∃ pre post, read_listmmf_check ⟨1, 14, 10⟩ =
        .error (.oddByteTypeUnsupported (pre ++ DATA_TYPE_NAMES 14 ++ post))) ∧
      ∀ dt, read_listmmf_check ⟨1, 14, 10⟩ ≠ .ok dt) :=
  ⟨by decide, read_listmmf_rejects_odd_byte ⟨1, 14, 10⟩ (by decide)⟩

/- ------------------------------------------------------------------
   Claims about the width lookup (DataTypeRegistry)
   ------------------------------------------------------------------ -/

/-- C6 (counterexample): the claim says the width lookup returns no width
for the bit-packed code 1 and a defined width for every odd-byte code, but
the scanner's `ELEM_WIDTH_BYTES` maps code 1 to width 1 (not `None`), and
the reader's `DTYPE_MAP` — the only width/type table the reader consults —
has no entry for the odd-byte code 14. -/
theorem width_lookup_claim_fails :
    (ELEM_WIDTH_BYTES 1 = some 1 ∧ ELEM_WIDTH_BYTES 1 ≠ none) ∧
    DTYPE_MAP 14 = none := by
  decide

/-- C6 (amended): there is no single width registry; each table is total in
its own way.  The scanner's `ELEM_WIDTH_BYTES` returns a defined byte width
for every decodable and odd-byte code and for the bit-packed code 1 (width
1), returning `None` exactly for the struct code 0 and codes outside 0..21;
the reader's `DTYPE_MAP` is defined exactly for the decodable codes 2..13
and returns `None` for codes 0, 1, the odd-byte codes and unknown codes. -/
theorem width_lookup_domains (c : Int) :
    ((ELEM_WIDTH_BYTES c).isSome ↔ 1 ≤ c ∧ c ≤ 21) ∧
    ((DTYPE_MAP c).isSome ↔ 2 ≤ c ∧ c ≤ 13) := by
  constructor
  · unfold ELEM_WIDTH_BYTES
    by_cases h : 1 ≤ c ∧ c ≤ 21
    · obtain ⟨h₁, h₂⟩ := h
      interval_cases c <;> simp
    · iterate 21 rw [if_neg (by omega)]
      simp
      omega
  · unfold DTYPE_MAP
    by_cases h : 2 ≤ c ∧ c ≤ 13
    · obtain ⟨h₁, h₂⟩ := h
      interval_cases c <;> simp
    · iterate 12 rw [if_neg (by omega)]
      simp
      omega

/- ------------------------------------------------------------------
   Counter lemmas
   ------------------------------------------------------------------ -/

/-- Reading back the incremented key sees exactly the added amount. -/
theorem cGet_cIncr (c : Counter) (k v : Int) :
    cGet (cIncr c k v) k = cGet c k + v := by
  induction c with
  | nil => simp [cIncr, cGet]
  | cons p rest ih =>
      obtain ⟨k₁, v₁⟩ := p
      by_cases h : k = k₁
      · simp [cIncr, cGet, h]
      · simp [cIncr, cGet, h, ih]

/-- Incrementing one key raises the value total by exactly that amount. -/
theorem cSum_cIncr (c : Counter) (k v : Int) :
    cSum (cIncr c k v) = cSum c + v := by
  induction c with
  | nil => simp [cIncr, cSum]
  | cons p rest ih =>
      obtain ⟨k₁, v₁⟩ := p
      by_cases h : k = k₁
      · simp [cIncr, cSum, h]; ring
      · simp [cIncr, cSum, h, ih]; ring

/- ------------------------------------------------------------------
   Claims about the odd-byte savings formula
   ------------------------------------------------------------------ -/

/-- The savings formula in the words of the claim: fallback width 4 bytes
for the 3-byte codes 14 and 18, 8 bytes for the 5/6/7-byte codes, minus the
actual width, times the element count.  Stated independently of
`ODD_FALLBACK_WIDTH` so the theorem compares the code's table against it. -/
def specOddSaved (dt c : Int) : Int :=
  ((if dt = 14 ∨ dt = 18 then (4 : Int) else 8) -
    (ELEM_WIDTH_BYTES dt).getD 0) * c

/-- For odd-byte codes the code's per-file savings equal the claim's
formula, clamped to zero when not positive. -/
theorem oddSaved_eq_spec (dt c : Int) (hm : dt ∈ ODD_BYTE_TYPES) :
    oddSaved dt c = if 0 < specOddSaved dt c then specOddSaved dt c else 0 := by
  fin_cases hm <;>
    simp [oddSaved, specOddSaved, ELEM_WIDTH_BYTES, ODD_FALLBACK_WIDTH] <;>
    split_ifs <;> omega

/-- C3: for every scanned file of an odd-byte data type, the scanner adds
`saved = (fallbackWidth - actualWidth) * count` — fallback 4 bytes for the
3-byte codes 14/18 and 8 bytes for codes 15/16/17/19/20/21 — to both the
total and the per-type savings accumulators exactly when `saved > 0`, and
adds nothing otherwise. -/
theorem scan_odd_savings (s : ScanStats) (info : FileInfo)
    (hm : info.data_type ∈ ODD_BYTE_TYPES) :
    (scanStep s info).odd_saved_bytes_total
      = s.odd_saved_bytes_total +
        (if 0 < specOddSaved info.data_type info.count then
          specOddSaved info.data_type info.count else 0) ∧
    cGet (scanStep s info).odd_saved_bytes_by_dtype info.data_type
      = cGet s.odd_saved_bytes_by_dtype info.data_type +
        (if 0 < specOddSaved info.data_type info.count then
          specOddSaved info.data_type info.count else 0) := by
  have hsp := oddSaved_eq_spec info.data_type info.count hm
  by_cases hpos : 0 < specOddSaved info.data_type info.count
  · have hpos2 : 0 < oddSaved info.data_type info.count := by
      rw [hsp, if_pos hpos]; exact hpos
    constructor
    · simp [scanStep, hm, hsp, hpos]
    · simp [scanStep, hm, hpos2, cGet_cIncr, hsp, hpos]
  · have hzero : oddSaved info.data_type info.count = 0 := by
      rw [hsp, if_neg hpos]
    constructor
    · simp [scanStep, hm, hzero, hpos]
    · simp [scanStep, hm, hzero, hpos]

/-- C3 (witness): a type-14 (3-byte) file with 1000 elements contributes
1000 saved bytes, and a type-15 (5-byte) file with 1000 elements contributes
3000 saved bytes, to both accumulators of a fresh scan. -/
theorem scan_odd_savings_witness :
    ((14 : Int) ∈ ODD_BYTE_TYPES ∧
      (scanStep initStats ⟨"a.bt", 3016, 1, 14, 1000⟩).odd_saved_bytes_total = 1000 ∧
      cGet (scanStep initStats ⟨"a.bt", 3016, 1, 14, 1000⟩).odd_saved_bytes_by_dtype 14 = 1000) ∧
    ((15 : Int) ∈ ODD_BYTE_TYPES ∧
      (scanStep initStats ⟨"b.bt", 5016, 1, 15, 1000⟩).odd_saved_bytes_total = 3000 ∧
      cGet (scanStep initStats ⟨"b.bt", 5016, 1, 15, 1000⟩).odd_saved_bytes_by_dtype 15 = 3000) := by
  constructor
  · refine ⟨by decide, ?_, ?_⟩
    · have h := (scan_odd_savings initStats ⟨"a.bt", 3016, 1, 14, 1000⟩ (by decide)).1
      rw [h]; decide
    · have h := (scan_odd_savings initStats ⟨"a.bt", 3016, 1, 14, 1000⟩ (by decide)).2
      rw [h]; decide
  · refine ⟨by decide, ?_, ?_⟩
    · have h := (scan_odd_savings initStats ⟨"b.bt", 5016, 1, 15, 1000⟩ (by decide)).1
      rw [h]; decide
    · have h := (scan_odd_savings initStats ⟨"b.bt", 5016, 1, 15, 1000⟩ (by decide)).2
      rw [h]; decide

/- ------------------------------------------------------------------
   Claims about the corpus scan fold
   ------------------------------------------------------------------ -/

/-- A file that is not a good `.bt` file leaves the scan state untouched. -/
theorem scanVisit_of_not_good (s : ScanStats) (f : ScanFile)
    (h : scanGood f = false) : scanVisit s f = s := by
  unfold scanGood at h
  unfold scanVisit
  by_cases hb : lowerEndsWithBt f.path
  · simp only [hb, if_true, Bool.true_and] at h ⊢
    cases hh : scan_read_header f with
    | none => rfl
    | some info => rw [hh] at h; simp at h
  · simp [hb]

/-- Folding the scan body over any file list equals folding it over only the
good files, from any starting state. -/
theorem scan_foldl_filter (fs : List ScanFile) :
    ∀ s : ScanStats, fs.foldl scanVisit s = (fs.filter scanGood).foldl scanVisit s := by
  induction fs with
  | nil => intro s; rfl
  | cons f rest ih =>
      intro s
      cases hg : scanGood f with
      | true => simp only [List.foldl_cons, List.filter_cons, hg, if_true]; exact ih _
      | false =>
          simp only [List.foldl_cons, List.filter_cons, hg]
          rw [scanVisit_of_not_good s f hg]
          exact ih s

/-- C7: the corpus scan never aborts because of one bad file — a file
smaller than 16 bytes (or with an undecodable header) yields `none` from the
scanner's `read_header`, is skipped, and is excluded from every aggregate:
scanning any file list gives exactly the statistics of scanning only the
files with the `.bt` extension and a decodable header. -/
theorem scan_excludes_bad_files :
    (∀ fs : List ScanFile, scan_dir fs = scan_dir (fs.filter scanGood)) ∧
    (∀ f : ScanFile, f.size_bytes < 16 → scan_read_header f = none) := by
  constructor
  · intro fs
    unfold scan_dir
    exact scan_foldl_filter fs initStats
  · intro f hf
    unfold scan_read_header
    rw [if_pos hf]

/-- C7 (witness): a 3-byte `.bt` file is skipped — the scan of just that
file equals the empty scan — and its header read yields `none`. -/
theorem scan_excludes_bad_files_witness :
    scan_dir [⟨"bad.bt", 3, [1, 2, 3]⟩] = scan_dir [] ∧
    scan_read_header ⟨"bad.bt", 3, [1, 2, 3]⟩ = none := by
  constructor
  · have h := scan_excludes_bad_files.1 [⟨"bad.bt", 3, [1, 2, 3]⟩]
    rw [h]
    have hf : List.filter scanGood [(⟨"bad.bt", 3, [1, 2, 3]⟩ : ScanFile)] = [] := by
      decide
    rw [hf]
  · exact scan_excludes_bad_files.2 ⟨"bad.bt", 3, [1, 2, 3]⟩ (by decide)

/-- The aggregate invariant of C9 holding of a scan state. -/
def statsInv (s : ScanStats) : Prop :=
  s.total_files = cSum s.by_dtype_files ∧ s.total_bytes = cSum s.by_dtype_bytes

/-- Processing one decoded file preserves the aggregate invariant. -/
theorem statsInv_scanStep (s : ScanStats) (info : FileInfo)
    (h : statsInv s) : statsInv (scanStep s info) := by
  obtain ⟨h₁, h₂⟩ := h
  constructor
  · show s.total_files + 1 = cSum (cIncr s.by_dtype_files info.data_type 1)
    rw [cSum_cIncr, h₁]
  · show s.total_bytes + info.size_bytes
        = cSum (cIncr s.by_dtype_bytes info.data_type info.size_bytes)
    rw [cSum_cIncr, h₂]

/-- Visiting any file (good or skipped) preserves the aggregate invariant. -/
theorem statsInv_scanVisit (s : ScanStats) (f : ScanFile)
    (h : statsInv s) : statsInv (scanVisit s f) := by
  unfold scanVisit
  by_cases hb : lowerEndsWithBt f.path
  · simp only [hb, if_true]
    cases hh : scan_read_header f with
    | none => exact h
    | some info => exact statsInv_scanStep s info h
  · simp only [hb, if_false]
    exact h

/-- The invariant holds after folding over any file list. -/
theorem statsInv_foldl (fs : List ScanFile) :
    ∀ s : ScanStats, statsInv s → statsInv (fs.foldl scanVisit s) := by
  induction fs with
  | nil => intro s h; exact h
  | cons f rest ih => intro s h; exact ih _ (statsInv_scanVisit s f h)

/-- C9: after every corpus scan (the fold processes the files one at a time,
so this holds after each step starting from the fresh accumulator), the
total file count equals the sum over all data-type codes of the per-type
file counts and the total byte count equals the sum of the per-type byte
totals: every decodable file is counted exactly once in both views. -/
theorem scan_totals_match_per_type (fs : List ScanFile) :
    (scan_dir fs).total_files = cSum (scan_dir fs).by_dtype_files ∧
    (scan_dir fs).total_bytes = cSum (scan_dir fs).by_dtype_bytes :=
  statsInv_foldl fs initStats ⟨rfl, rfl⟩

/- ------------------------------------------------------------------
   Claims about the HeaderCodec round trip
   ------------------------------------------------------------------ -/

/-- A little-endian signed 32-bit field reads back as the unsigned residue. -/
theorem leNat_encodeI32 (n : Int) : leNat (encodeI32 n) = (n % 2 ^ 32).toNat := by
  have hu : (n % 2 ^ 32).toNat < 2 ^ 32 := by omega
  simp only [encodeI32, leNat, List.foldr]
  generalize (n % 2 ^ 32).toNat = u at *
  omega

/-- Signed 32-bit round trip for in-range values. -/
theorem decodeI32_encodeI32 (n : Int) (h₁ : -(2 ^ 31) ≤ n) (h₂ : n < 2 ^ 31) :
    decodeI32 (encodeI32 n) = n := by
  simp only [decodeI32, leNat_encodeI32]
  split_ifs <;> omega

/-- A little-endian signed 64-bit field reads back as the unsigned residue. -/
theorem leNat_encodeI64 (n : Int) : leNat (encodeI64 n) = (n % 2 ^ 64).toNat := by
  have hu : (n % 2 ^ 64).toNat < 2 ^ 64 := by omega
  simp only [encodeI64, leNat, List.foldr]
  generalize (n % 2 ^ 64).toNat = u at *
  omega

/-- Signed 64-bit round trip for in-range values. -/
theorem decodeI64_encodeI64 (n : Int) (h₁ : -(2 ^ 63) ≤ n) (h₂ : n < 2 ^ 63) :
    decodeI64 (encodeI64 n) = n := by
  simp only [decodeI64, leNat_encodeI64]
  split_ifs <;> omega

/-- Each encoded 32-bit field is 4 bytes. -/
theorem encodeI32_length (n : Int) : (encodeI32 n).length = 4 := by
  simp [encodeI32]

/-- C8: for every valid header `(version, dataType, count)` — each field in
its machine range — encoding to the 16-byte little-endian buffer and
decoding it yields the header back: `decode(encode(h)) = h`. -/
theorem header_round_trip (h : Header) (hv : validHeader h) :
    decode_header (encode_header h) = some h := by
  obtain ⟨v, d, c⟩ := h
  obtain ⟨h₁, h₂, h₃, h₄, h₅, h₆⟩ := hv
  have hlen : (encodeI32 v ++ encodeI32 d ++ encodeI64 c).length = 16 := by
    simp [encodeI32, encodeI64]
  unfold decode_header encode_header
  rw [if_pos hlen]
  have htake : (encodeI32 v ++ encodeI32 d ++ encodeI64 c).take 4 = encodeI32 v := by
    rw [List.append_assoc, List.take_left' (encodeI32_length v)]
  have hdrop4 : (encodeI32 v ++ encodeI32 d ++ encodeI64 c).drop 4
      = encodeI32 d ++ encodeI64 c := by
    rw [List.append_assoc, List.drop_left' (encodeI32_length v)]
  have hdrop8 : (encodeI32 v ++ encodeI32 d ++ encodeI64 c).drop 8 = encodeI64 c := by
    have hl : (encodeI32 v ++ encodeI32 d).length = 8 := by
      simp [encodeI32]
    rw [List.drop_left' hl]
  rw [htake, hdrop4, hdrop8, List.take_left' (encodeI32_length d)]
  rw [decodeI32_encodeI32 v h₁ h₂, decodeI32_encodeI32 d h₃ h₄,
    decodeI64_encodeI64 c h₅ h₆]

/-- C8 (witness): a concrete valid header with negative version and count
(exercising the two's-complement paths) survives the round trip. -/
theorem header_round_trip_witness :
    validHeader ⟨-1, 12, -1000⟩ ∧
    decode_header (encode_header ⟨-1, 12, -1000⟩) = some ⟨-1, 12, -1000⟩ :=
  ⟨by decide, header_round_trip ⟨-1, 12, -1000⟩ (by decide)⟩

/- ------------------------------------------------------------------
   Claims about the column merge
   ------------------------------------------------------------------ -/

/-- The running maximum starts no lower than its seed. -/
theorem foldl_max_init_le (l : List Nat) : ∀ a : Nat, a ≤ l.foldl max a := by
  induction l with
  | nil => intro a; exact le_refl a
  | cons x xs ih => intro a; exact le_trans (le_max_left a x) (ih (max a x))

/-- Every member is bounded by the fold of `max`. -/
theorem mem_le_foldl_max (l : List Nat) : ∀ (a x : Nat), x ∈ l → x ≤ l.foldl max a := by
  induction l with
  | nil => intro a x hx; cases hx
  | cons y ys ih =>
      intro a x hx
      rcases List.mem_cons.mp hx with rfl | h
      · exact le_trans (le_max_right a x) (foldl_max_init_le ys (max a x))
      · exact ih (max a y) x h

/-- A list containing two distinct elements has more than one element. -/
theorem one_lt_length_of_distinct_mem {α : Type _} (l : List α) (a b : α)
    (ha : a ∈ l) (hb : b ∈ l) (hne : a ≠ b) : 1 < l.length := by
  match l with
  | [] => cases ha
  | [x] =>
      rcases List.mem_singleton.mp ha with rfl
      rcases List.mem_singleton.mp hb with rfl
      exact absurd rfl hne
  | x :: y :: rest => simp only [List.length_cons]; omega

/-- C4: merging a non-empty set of columns whose lengths are not all equal
records the length-mismatch warning, does not abort, and produces a table
whose every column has the maximum input length, with each shorter column's
trailing cells equal to the missing-value sentinel. -/
theorem merge_pads_to_max {α : Type _} (files : List (String × List α))
    (hne : files ≠ [])
    (hmism : ∃ p ∈ files, ∃ q ∈ files, p.2.length ≠ q.2.length) :
    convert_to_parquet files = .ok (true,
      files.map (fun p =>
        (p.1, p.2.map some ++ List.replicate (maxLen files - p.2.length) none))) ∧
    (∀ col ∈ files.map (fun p =>
        (p.1, p.2.map some ++ List.replicate (maxLen files - p.2.length) none)),
      col.2.length = maxLen files) ∧
    (∀ p ∈ files, ∀ i, p.2.length ≤ i → i < maxLen files →
      (p.2.map some ++ List.replicate (maxLen files - p.2.length) none)[i]? = some none) := by
  obtain ⟨p₀, hp₀, q₀, hq₀, hne₀⟩ := hmism
  have hwarn : 1 < (files.map (fun p => p.2.length)).dedup.length := by
    refine one_lt_length_of_distinct_mem _ p₀.2.length q₀.2.length ?_ ?_ hne₀
    · exact List.mem_dedup.mpr (List.mem_map_of_mem _ hp₀)
    · exact List.mem_dedup.mpr (List.mem_map_of_mem _ hq₀)
  have hempty : files.isEmpty = false := by
    cases files with
    | nil => exact absurd rfl hne
    | cons a l => rfl
  refine ⟨?_, ?_, ?_⟩
  · unfold convert_to_parquet
    rw [hempty]
    simp only [Bool.false_eq_true, if_false, decide_eq_true hwarn]
  · intro col hcol
    obtain ⟨p, hp, rfl⟩ := List.mem_map.mp hcol
    have hle : p.2.length ≤ maxLen files :=
      mem_le_foldl_max _ 0 _ (List.mem_map_of_mem _ hp)
    simp only [List.length_append, List.length_map, List.length_replicate]
    omega
  · intro p hp i hi₁ hi₂
    have hlen : (p.2.map some).length = p.2.length := List.length_map _ _
    rw [List.getElem?_append_right (by omega)]
    rw [List.getElem?_replicate]
    rw [if_pos (by omega)]

/-- C4 (witness): merging a 10-element column `A` with a 7-element column
`B` yields the warning and a 10-row table in which cells 7..9 of `B` are the
missing sentinel. -/
theorem merge_pads_to_max_witness :
    convert_to_parquet [("A", ([0, 1, 2, 3, 4, 5, 6, 7, 8, 9] : List Int)),
        ("B", [0, 1, 2, 3, 4, 5, 6])]
      = .ok (true,
        [("A", [some 0, some 1, some 2, some 3, some 4, some 5, some 6, some 7,
                some 8, some 9]),
         ("B", [some 0, some 1, some 2, some 3, some 4, some 5, some 6,
                none, none, none])]) := by
  have h := (merge_pads_to_max
    [("A", ([0, 1, 2, 3, 4, 5, 6, 7, 8, 9] : List Int)), ("B", [0, 1, 2, 3, 4, 5, 6])]
    (by decide)
    ⟨("A", [0, 1, 2, 3, 4, 5, 6, 7, 8, 9]), by decide, ("B", [0, 1, 2, 3, 4, 5, 6]),
      by decide, by decide⟩).1
  rw [h]
  rfl

/- ------------------------------------------------------------------
   Claims about the directory-merge column lookup
   ------------------------------------------------------------------ -/

/-- C10: with an explicit column list, every requested name tries `.mmf`
before `.bt`: when both files exist the `.mmf` one is selected (and no entry
binds the name to anything else); when neither exists the name is absent
from the mapping and lands in the warning list. -/
theorem find_col_priority (dir : List String) (cols : List String) (col : String)
    (hc : col ∈ cols) :
    ((col ++ ".mmf") ∈ dir → (col ++ ".bt") ∈ dir →
      ((col, col ++ ".mmf") ∈ find_mmf_files_named dir cols ∧
        ∀ p ∈ find_mmf_files_named dir cols, p.1 = col → p.2 = col ++ ".mmf")) ∧
    ((col ++ ".mmf") ∉ dir → (col ++ ".bt") ∉ dir →
      ((∀ p ∈ find_mmf_files_named dir cols, p.1 ≠ col) ∧
        col ∈ find_mmf_warnings dir cols)) := by
  constructor
  · intro h₁ _
    have hl : lookup_col dir col = some (col ++ ".mmf") := by
      simp [lookup_col, h₁]
    constructor
    · exact List.mem_filterMap.mpr ⟨col, hc, by rw [hl]; rfl⟩
    · intro p hp hpcol
      obtain ⟨c, _, hcl⟩ := List.mem_filterMap.mp hp
      cases hlc : lookup_col dir c with
      | none => rw [hlc] at hcl; simp at hcl
      | some path =>
          rw [hlc] at hcl
          simp only [Option.map_some', Option.some.injEq] at hcl
          subst hcl
          have hceq : c = col := hpcol
          subst hceq
          rw [hl] at hlc
          exact (Option.some_inj.mp hlc).symm
  · intro h₁ h₂
    have hl : lookup_col dir col = none := by
      simp [lookup_col, h₁, h₂]
    constructor
    · intro p hp hpcol
      obtain ⟨c, _, hcl⟩ := List.mem_filterMap.mp hp
      cases hlc : lookup_col dir c with
      | none => rw [hlc] at hcl; simp at hcl
      | some path =>
          rw [hlc] at hcl
          simp only [Option.map_some', Option.some.injEq] at hcl
          subst hcl
          have hceq : c = col := hpcol
          subst hceq
          rw [hl] at hlc
          exact Option.noConfusion hlc
    · exact List.mem_filter.mpr ⟨hc, by simp [hl]⟩

/-- C10 (witness): in a directory holding both `A.mmf` and `A.bt`, the
column `A` resolves to `A.mmf`; the absent column `B` is omitted and
warned about. -/
theorem find_col_priority_witness :
    ((("A", "A" ++ ".mmf") ∈ find_mmf_files_named ["A.mmf", "A.bt"] ["A", "B"] ∧
        ∀ p ∈ find_mmf_files_named ["A.mmf", "A.bt"] ["A", "B"],
          p.1 = "A" → p.2 = "A" ++ ".mmf")) ∧
    ((∀ p ∈ find_mmf_files_named ["A.mmf", "A.bt"] ["A", "B"], p.1 ≠ "B") ∧
      "B" ∈ find_mmf_warnings ["A.mmf", "A.bt"] ["A", "B"]) :=
  ⟨(find_col_priority ["A.mmf", "A.bt"] ["A", "B"] "A" (by decide)).1
      (by decide) (by decide),
    (find_col_priority ["A.mmf", "A.bt"] ["A", "B"] "B" (by decide)).2
      (by decide) (by decide)⟩
